import Mathlib

/-!
Verification of the work-schedule generator and the weekend-count routine of
`core-js-dates` (source: `src/core-js-dates-tasks.js`).

Modelling conventions:
* A calendar date is its day number: the count of days since 1970-01-01
  (proleptic Gregorian calendar), exactly the ECMAScript time value divided by
  86400000.  The source parses `YYYY-MM-DD` strings with `Date.parse`, which
  yields UTC midnight, so every JS `Date` occurring in `getWorkSchedule` is a
  whole-day timestamp, and `setDate(getDate() + k)` is day-number addition by
  `k`.  Per the specification the dates are naive local calendar dates with no
  timezone ambiguity, so the local getters used by `transformDate` read the
  same civil date that was parsed.
* `newEndDateObj - newStartDateObj` is `(e - s) * 86400000`, hence
  `Math.ceil(diff / 1000 / 3600 / 24)` is exactly `e - s` (an integer, also
  when negative).
* The source contains no `throw`; a thrown exception would be modelled by
  `Except.error`.  Divergence of the JS loop (possible only when
  `countWorkDays + countOffDays = 0` and the range is nonempty) is modelled by
  `Option.none`.
-/

namespace CoreJsDates

/-- Day count since 1970-01-01 of the civil date `(year, month, day)` in the
proleptic Gregorian calendar (the ECMAScript `MakeDay` value), for `year ≥ 1`,
`1 ≤ month ≤ 12`, `day ≥ 1`. -/
def daysFromCivil (year month day : Nat) : Int :=
  let y := year - (if month ≤ 2 then 1 else 0)
  let era := y / 400
  let yoe := y % 400
  let mp := if 2 < month then month - 3 else month + 9
  let doy := (153 * mp + 2) / 5 + day - 1
  let doe := yoe * 365 + yoe / 4 - yoe / 100 + doy
  (era : Int) * 146097 + (doe : Int) - 719468

/-- Inverse of `daysFromCivil`: the civil `(year, month, day)` of a day
number. -/
def civilFromDays (z : Int) : Int × Nat × Nat :=
  let a := z + 719468
  let era := a / 146097
  let doe := (a - era * 146097).toNat
  let yoe := (doe - doe / 1460 + doe / 36524 - doe / 146096) / 365
  let y : Int := (yoe : Int) + era * 400
  let doy := doe - (365 * yoe + yoe / 4 - yoe / 100)
  let mp := (5 * doy + 2) / 153
  let d := doy - (153 * mp + 2) / 5 + 1
  let m := if mp < 10 then mp + 3 else mp - 9
  (if m ≤ 2 then y + 1 else y, m, d)

/-- `String(n).padStart(2, '0')` for a nonnegative integer. -/
def pad2 (n : Nat) : String :=
  if n < 10 then "0" ++ toString n else toString n

/-- Source `transformDate` (lines 377-385): render a date as `DD-MM-YYYY`
with zero-padded day and month. -/
def transformDate (z : Int) : String :=
  let c := civilFromDays z
  pad2 c.2.2 ++ "-" ++ pad2 c.2.1 ++ "-" ++ toString c.1

/-- The leap-year rule of the Gregorian calendar, as used by the ECMAScript
`Date` object. -/
def isLeapG (year : Nat) : Bool :=
  (year % 4 == 0 && year % 100 != 0) || year % 400 == 0

/-- Source `getCountDaysInMonth` (lines 129-131): `new Date(year, month, 0)
.getDate()`, the number of days of the 1-based `month` of `year`. -/
def getCountDaysInMonth (month year : Nat) : Nat :=
  if month = 2 then (if isLeapG year then 29 else 28)
  else if month = 4 ∨ month = 6 ∨ month = 9 ∨ month = 11 then 30
  else 31

/-- The numeric value of a decimal digit character, `none` otherwise. -/
def charDigit (c : Char) : Option Nat :=
  if '0' ≤ c ∧ c ≤ '9' then some (c.toNat - '0'.toNat) else none

/-- Decimal value of a nonempty list of digit characters. -/
def digitsToNat : List Char → Option Nat
  | [] => none
  | cs => cs.foldlM (fun acc c => (charDigit c).map (fun d => acc * 10 + d)) 0

/-- Split a character list at each `'-'` (the effect of
`str.split('-')` on the character level). -/
def splitDash (cs : List Char) : List (List Char) :=
  match cs with
  | [] => [[]]
  | c :: rest =>
    let r := splitDash rest
    if c = '-' then [] :: r
    else match r with
      | [] => [[c]]
      | g :: gs => (c :: g) :: gs

/-- Source lines 388-392: take a `DD-MM-YYYY` string, split at `'-'`,
reverse the fields, rejoin as `YYYY-MM-DD` and apply `Date.parse`; the result
is the day number of the denoted date, `none` when the string does not denote
a valid calendar date (JS `NaN`). -/
def parseDMY (str : String) : Option Int :=
  match (splitDash str.toList).reverse with
  | [ys, ms, ds] => do
    let y ← digitsToNat ys
    let m ← digitsToNat ms
    let d ← digitsToNat ds
    if 1 ≤ m ∧ m ≤ 12 ∧ 1 ≤ d ∧ d ≤ getCountDaysInMonth m y ∧ 1 ≤ y then
      pure (daysFromCivil y m d)
    else none
  | _ => none

/-- The dates emitted by one pass of the inner `for` loop of
`getWorkSchedule` (lines 402-408): starting from cursor `curr` it emits
`curr, curr + 1, …, curr + W - 1` and leaves the cursor at `curr + W`. -/
def workBlock (curr : Int) (W : Nat) : List Int :=
  (List.range W).map (fun (b : Nat) => curr + (b : Int))

/-- The outer `for` loop of `getWorkSchedule` (lines 401-413).  `n` is
`totalDayCount`, `curr` the cursor, `i` the loop variable (starting at 1).
Each iteration emits a full work block, then advances `i` by
`countWorkDays + countOffDays` (the `i += countWorkDays` inside the body plus
the `i += countOffDays` loop update) and the cursor by the same amount.
Returns the emitted day numbers and the final cursor.  The hypothesis
`0 < W + O` makes the loop terminating. -/
def schedLoop (W O : Nat) (h : 0 < W + O) (n : Int) (curr i : Int) :
    List Int × Int :=
  if _hin : i ≤ n then
    let rest := schedLoop W O h n (curr + (W : Int) + (O : Int))
      (i + (W : Int) + (O : Int))
    (workBlock curr W ++ rest.1, rest.2)
  else ([], curr)
termination_by (n + 1 - i).toNat
decreasing_by omega

/-- Number of iterations performed by the outer `for` loop of
`getWorkSchedule`: same recursion as `schedLoop`, counting. -/
def schedLoopIters (W O : Nat) (h : 0 < W + O) (n : Int) (i : Int) : Nat :=
  if _hin : i ≤ n then
    schedLoopIters W O h n (i + (W : Int) + (O : Int)) + 1
  else 0
termination_by (n + 1 - i).toNat
decreasing_by omega

/-- Source `getWorkSchedule` (lines 387-421) on day numbers: `s`, `e` are the
parsed start and end dates, `totalDayCount = e - s`.  After the loop, if the
cursor landed exactly on the end date it is pushed as well (lines 415-418).
When `W + O = 0` the loop variable never advances: the JS loop diverges
whenever its guard `1 ≤ totalDayCount` holds (modelled by `none`), and
otherwise runs zero times. -/
def getWorkScheduleCore (s e : Int) (W O : Nat) : Option (List Int) :=
  let totalDayCount := e - s
  if h : 0 < W + O then
    let r := schedLoop W O h totalDayCount s 1
    some (if r.2 = e then r.1 ++ [r.2] else r.1)
  else if totalDayCount < 1 then
    some (if s = e then [s] else [])
  else none

/-- The period argument of `getWorkSchedule`: two `DD-MM-YYYY` strings. -/
structure DatePeriod where
  start : String
  «end» : String

/-- Source `getWorkSchedule` (lines 387-421) on the string interface.
`some (Except.ok l)` is a normal return, `some (Except.error m)` would be a
thrown exception (the source throws nothing), `none` is divergence (or an
unparseable period, which no claim concerns). -/
def getWorkSchedule (period : DatePeriod) (countWorkDays countOffDays : Nat) :
    Option (Except String (List String)) :=
  match parseDMY period.start, parseDMY period.«end» with
  | some s, some e =>
    (getWorkScheduleCore s e countWorkDays countOffDays).map
      (fun l => Except.ok (l.map transformDate))
  | _, _ => none

/-- The routine raised an exception. -/
def raisesInvalidArgument (r : Option (Except String (List String))) : Prop :=
  ∃ msg, r = some (Except.error msg)

/-- Closed form of the number of outer-loop iterations when the loop variable
starts at `i`: zero when `n < i`, else `⌊(n - i) / P⌋ + 1` where
`P = W + O`. -/
def kFrom (n i : Int) (P : Nat) : Nat :=
  if n < i then 0 else (n - i).toNat / P + 1

/-- `k` untruncated work blocks of length `W`, the `j`-th starting
`j * (W + O)` days after `s`. -/
def blockSchedule (s : Int) (W O k : Nat) : List Int :=
  (List.range k).flatMap (fun (j : Nat) =>
    (List.range W).map (fun (b : Nat) =>
      s + (j : Int) * ((W : Int) + (O : Int)) + (b : Int)))

/-- Amended specification of the schedule actually produced: one full
(untruncated) work block per loop iteration, plus the end date itself exactly
when the cursor lands on it. -/
def schedSpecAmended (s e : Int) (W O : Nat) : List Int :=
  let k := kFrom (e - s) 1 (W + O)
  blockSchedule s W O k ++
    (if s + (k : Int) * ((W : Int) + (O : Int)) = e then [e] else [])

/-- The schedule described by the original specification sentence: the dates
`d` of `[s, e]` whose day offset from `s` satisfies
`(d - s) % (W + O) < W`, in increasing order, truncated at `e`. -/
def schedSpecOriginal (s e : Int) (W O : Nat) : List Int :=
  (((List.range ((e - s).toNat + 1)).map (fun (j : Nat) => s + (j : Int))).filter
    (fun d => (d - s) % ((W : Int) + (O : Int)) < (W : Int)))

/-- ECMAScript `getDay()` of a day number: 0 = Sunday, …, 6 = Saturday
(1970-01-01, day 0, was a Thursday, value 4). -/
def jsGetDay (z : Int) : Nat :=
  ((z + 4) % 7).toNat

/-- The date falls on a Saturday or a Sunday (the test of line 247). -/
def isWeekendDay (z : Int) : Bool :=
  jsGetDay z == 0 || jsGetDay z == 6

/-- Source `getCountWeekendsInMonth` (lines 237-253, the active "second
way"): the counter starts at 8 and the loop runs for
`i = 29 .. dayInMonth`, i.e. `dayInMonth - 28` iterations; the scanned
`date` starts at the FIRST day of the month and advances one day per
iteration, so the loop adds the weekend days among the first
`dayInMonth - 28` days of the month. -/
def getCountWeekendsInMonth (month year : Nat) : Nat :=
  let dayInMonth := getCountDaysInMonth month year
  let first := daysFromCivil year month 1
  8 + (List.range (dayInMonth - 28)).countP
    (fun (j : Nat) => isWeekendDay (first + (j : Int)))

/-- Reference definition, from the routine's documented purpose: the total
number of Saturdays and Sundays among the days of the month. -/
def specWeekendCount (month year : Nat) : Nat :=
  (List.range (getCountDaysInMonth month year)).countP
    (fun (j : Nat) => isWeekendDay (daysFromCivil year month 1 + (j : Int)))

theorem kFrom_of_lt {n i : Int} (P : Nat) (h : n < i) : kFrom n i P = 0 := by
  simp [kFrom, h]

theorem kFrom_step (W O : Nat) (h : 0 < W + O) {n i : Int} (hin : i ≤ n) :
    kFrom n i (W + O) =
      kFrom n (i + (W : Int) + (O : Int)) (W + O) + 1 := by
  unfold kFrom
  rw [if_neg (by omega)]
  by_cases hc : n < i + (W : Int) + (O : Int)
  · rw [if_pos hc, Nat.div_eq_of_lt (by omega)]
  · rw [if_neg hc]
    have h2 : (n - i).toNat = (n - (i + (W : Int) + (O : Int))).toNat + (W + O) := by
      omega
    rw [h2, Nat.add_div_right _ h]

theorem blockSchedule_zero (s : Int) (W O : Nat) : blockSchedule s W O 0 = [] := by
  simp [blockSchedule]

theorem blockSchedule_succ (s : Int) (W O k : Nat) :
    blockSchedule s W O (k + 1) =
      workBlock s W ++ blockSchedule (s + (W : Int) + (O : Int)) W O k := by
  unfold blockSchedule workBlock
  rw [List.range_succ_eq_map, List.flatMap_cons, List.flatMap_map]
  congr 1
  · simp
  · apply List.flatMap_congr
    intro j _
    apply List.map_congr_left
    intro b _
    push_cast
    ring

theorem schedLoop_closed (W O : Nat) (h : 0 < W + O) (n : Int) :
    ∀ (m : Nat) (curr i : Int), (n + 1 - i).toNat ≤ m →
      schedLoop W O h n curr i =
        (blockSchedule curr W O (kFrom n i (W + O)),
          curr + (kFrom n i (W + O) : Int) * ((W : Int) + (O : Int))) := by
  intro m
  induction m with
  | zero =>
    intro curr i hm
    rw [schedLoop, dif_neg (by omega : ¬ i ≤ n), kFrom_of_lt _ (by omega),
      blockSchedule_zero]
    simp
  | succ m ih =>
    intro curr i hm
    rw [schedLoop]
    by_cases hin : i ≤ n
    · rw [dif_pos hin]
      have hrec := ih (curr + (W : Int) + (O : Int))
        (i + (W : Int) + (O : Int)) (by omega)
      simp only [hrec, kFrom_step W O h hin, blockSchedule_succ,
        Prod.mk.injEq]
      refine ⟨trivial, by push_cast; ring⟩
    · rw [dif_neg hin, kFrom_of_lt _ (by omega), blockSchedule_zero]
      simp

theorem schedLoopIters_closed (W O : Nat) (h : 0 < W + O) (n : Int) :
    ∀ (m : Nat) (i : Int), (n + 1 - i).toNat ≤ m →
      schedLoopIters W O h n i = kFrom n i (W + O) := by
  intro m
  induction m with
  | zero =>
    intro i hm
    rw [schedLoopIters, dif_neg (by omega : ¬ i ≤ n), kFrom_of_lt _ (by omega)]
  | succ m ih =>
    intro i hm
    rw [schedLoopIters]
    by_cases hin : i ≤ n
    · rw [dif_pos hin, ih _ (by omega), kFrom_step W O h hin]
    · rw [dif_neg hin, kFrom_of_lt _ (by omega)]

theorem getWorkScheduleCore_closed (s e : Int) (W O : Nat) (h : 0 < W + O) :
    getWorkScheduleCore s e W O = some (schedSpecAmended s e W O) := by
  have hl := schedLoop_closed W O h (e - s) (e - s + 1 - 1).toNat s 1 (le_refl _)
  simp only [getWorkScheduleCore, schedSpecAmended, dif_pos h, hl]
  split_ifs with hc
  · rw [hc]
  · simp

theorem mem_blockSchedule {x s : Int} {W O k : Nat} :
    x ∈ blockSchedule s W O k ↔
      ∃ j < k, ∃ b < W,
        x = s + (j : Int) * ((W : Int) + (O : Int)) + (b : Int) := by
  simp only [blockSchedule, List.mem_flatMap, List.mem_map, List.mem_range]
  constructor
  · rintro ⟨j, hj, b, hb, hx⟩
    exact ⟨j, hj, b, hb, hx.symm⟩
  · rintro ⟨j, hj, b, hb, rfl⟩
    exact ⟨j, hj, b, hb, rfl⟩

theorem isWeekendDay_add_28 (z : Int) :
    isWeekendDay (z + 28) = isWeekendDay z := by
  unfold isWeekendDay jsGetDay
  have h : ((z + 28 + 4) % 7).toNat = ((z + 4) % 7).toNat := by omega
  rw [h]

theorem countWeekend_28 (z : Int) :
    (List.range 28).countP (fun (j : Nat) => isWeekendDay (z + (j : Int))) =
      8 := by
  have h7 : ((z + 4) % 7).toNat < 7 := by omega
  have hpt : ∀ j : Nat, isWeekendDay (z + (j : Int)) =
      (((((z + 4) % 7).toNat + j) % 7 == 0) ||
        ((((z + 4) % 7).toNat + j) % 7 == 6)) := by
    intro j
    unfold isWeekendDay jsGetDay
    have h : ((z + (j : Int) + 4) % 7).toNat = (((z + 4) % 7).toNat + j) % 7 := by
      omega
    rw [h]
  rw [List.countP_congr (fun x _ => by rw [hpt x])]
  have hball : ∀ r < 7, (List.range 28).countP
      (fun (j : Nat) => (((r + j) % 7 == 0) || ((r + j) % 7 == 6))) = 8 := by
    decide
  exact hball _ h7

theorem getCountDaysInMonth_ge_28 (month year : Nat) :
    28 ≤ getCountDaysInMonth month year := by
  unfold getCountDaysInMonth
  split_ifs <;> omega

/-- Correctness of the weekend-count routine: the hard-coded 8 is the exact
number of weekend days among the first 28 days of any month, and the loop
adds the weekend count of the remaining days (days 29 and beyond fall on the
same weekdays as days 1, 2, 3). -/
theorem getCountWeekendsInMonth_correct (month year : Nat) :
    getCountWeekendsInMonth month year = specWeekendCount month year := by
  unfold getCountWeekendsInMonth specWeekendCount
  obtain ⟨t, ht⟩ : ∃ t, getCountDaysInMonth month year = 28 + t :=
    ⟨getCountDaysInMonth month year - 28, by
      have := getCountDaysInMonth_ge_28 month year
      omega⟩
  rw [ht]
  dsimp only
  rw [Nat.add_sub_cancel_left]
  rw [List.range_add, List.countP_append, List.countP_map]
  rw [countWeekend_28]
  congr 1
  apply List.countP_congr
  intro x _
  have h : daysFromCivil year month 1 + ((28 + x : Nat) : Int) =
      daysFromCivil year month 1 + (x : Int) + 28 := by
    push_cast
    ring
  show (isWeekendDay (daysFromCivil year month 1 + (x : Int)) = true) ↔
    (isWeekendDay (daysFromCivil year month 1 + ((28 + x : Nat) : Int)) = true)
  rw [h, isWeekendDay_add_28]

theorem pairwise_workBlock (curr : Int) (W : Nat) :
    (workBlock curr W).Pairwise (· < ·) :=
  List.Pairwise.map _ (fun a b hab => by omega) (List.pairwise_lt_range W)

theorem mem_workBlock_bounds {x curr : Int} {W : Nat}
    (hx : x ∈ workBlock curr W) : curr ≤ x ∧ x ≤ curr + (W : Int) - 1 := by
  unfold workBlock at hx
  rw [List.mem_map] at hx
  obtain ⟨b, hb, rfl⟩ := hx
  rw [List.mem_range] at hb
  omega

theorem mem_blockSchedule_lower {x s : Int} {W O k : Nat}
    (hx : x ∈ blockSchedule s W O k) : s ≤ x := by
  rw [mem_blockSchedule] at hx
  obtain ⟨j, hj, b, hb, rfl⟩ := hx
  have h1 : 0 ≤ (j : Int) * ((W : Int) + (O : Int)) := by positivity
  omega

theorem mem_blockSchedule_upper {x s : Int} {W O k : Nat}
    (hx : x ∈ blockSchedule s W O k) :
    x ≤ s + ((k : Int) - 1) * ((W : Int) + (O : Int)) + (W : Int) - 1 := by
  rw [mem_blockSchedule] at hx
  obtain ⟨j, hj, b, hb, rfl⟩ := hx
  have h1 : (j : Int) ≤ (k : Int) - 1 := by omega
  have h2 : (j : Int) * ((W : Int) + (O : Int)) ≤
      ((k : Int) - 1) * ((W : Int) + (O : Int)) :=
    mul_le_mul_of_nonneg_right h1 (by positivity)
  omega

theorem pairwise_blockSchedule (W O : Nat) :
    ∀ (k : Nat) (s : Int), (blockSchedule s W O k).Pairwise (· < ·) := by
  intro k
  induction k with
  | zero =>
    intro s
    rw [blockSchedule_zero]
    exact List.Pairwise.nil
  | succ k ih =>
    intro s
    rw [blockSchedule_succ, List.pairwise_append]
    refine ⟨pairwise_workBlock s W, ih _, ?_⟩
    intro x hx y hy
    have hx2 := (mem_workBlock_bounds hx).2
    have hy1 := mem_blockSchedule_lower hy
    omega

theorem pairwise_schedSpecAmended (s e : Int) (W O : Nat) :
    (schedSpecAmended s e W O).Pairwise (· < ·) := by
  unfold schedSpecAmended
  dsimp only
  rw [List.pairwise_append]
  refine ⟨pairwise_blockSchedule W O _ _, ?_, ?_⟩
  · split_ifs <;> simp
  · intro x hx y hy
    split_ifs at hy with hal
    · rw [List.mem_singleton] at hy
      have hx2 := mem_blockSchedule_upper hx
      have hrel : ((kFrom (e - s) 1 (W + O) : Int) - 1) *
            ((W : Int) + (O : Int)) + ((W : Int) + (O : Int)) =
          (kFrom (e - s) 1 (W + O) : Int) * ((W : Int) + (O : Int)) := by
        ring
      generalize hA : ((kFrom (e - s) 1 (W + O) : Int) - 1) *
        ((W : Int) + (O : Int)) = A at hx2 hrel
      generalize hB : (kFrom (e - s) 1 (W + O) : Int) *
        ((W : Int) + (O : Int)) = B at hrel hal
      omega
    · simp at hy

theorem kFrom_pred_mul_le {n : Int} {P : Nat} (hn : 1 ≤ n) :
    ((kFrom n 1 P : Int) - 1) * (P : Int) ≤ n - 1 := by
  unfold kFrom
  rw [if_neg (by omega : ¬ n < 1)]
  have h3 : ((((n - 1).toNat / P + 1 : Nat) : Int) - 1) * (P : Int) =
      (((n - 1).toNat / P * P : Nat) : Int) := by
    push_cast
    ring
  rw [h3]
  have h4 : (((n - 1).toNat / P * P : Nat) : Int) ≤ ((n - 1).toNat : Int) :=
    Int.ofNat_le.mpr (Nat.div_mul_le_self (n - 1).toNat P)
  exact le_trans h4 (by omega)

theorem getWorkScheduleCore_empty_of_lt (s e : Int) (W O : Nat) (h : e < s) :
    getWorkScheduleCore s e W O = some [] := by
  unfold getWorkScheduleCore
  by_cases hWO : 0 < W + O
  · rw [dif_pos hWO]
    have hl := schedLoop_closed W O hWO (e - s) 0 s 1 (by omega)
    simp only [hl, kFrom_of_lt _ (show e - s < (1 : Int) by omega),
      blockSchedule_zero]
    rw [if_neg (by push_cast; omega)]
  · rw [dif_neg hWO, if_pos (by omega : e - s < 1),
      if_neg (by omega : ¬ s = e)]

theorem getWorkSchedule_never_error (p : DatePeriod) (W O : Nat)
    (msg : String) : getWorkSchedule p W O ≠ some (Except.error msg) := by
  unfold getWorkSchedule
  rcases hs : parseDMY p.start with _ | s
  · simp
  · rcases he : parseDMY p.«end» with _ | e
    · simp
    · intro hc
      rw [Option.map_eq_some'] at hc
      obtain ⟨l, _, hfe⟩ := hc
      exact Except.noConfusion hfe

theorem schedLoopIters_le (W O : Nat) (h : 0 < W + O) {s e : Int}
    (hse : s ≤ e) : schedLoopIters W O h (e - s) 1 ≤ (e - s).toNat + 1 := by
  rw [schedLoopIters_closed W O h (e - s) (e - s + 1 - 1).toNat 1 (le_refl _)]
  unfold kFrom
  split_ifs with hc
  · omega
  · have h1 : (e - s - 1).toNat / (W + O) ≤ (e - s - 1).toNat :=
      Nat.div_le_self _ _
    have h2 : (e - s - 1).toNat ≤ (e - s).toNat := by omega
    exact Nat.add_le_add_right (le_trans h1 h2) 1

theorem mem_schedSpecAmended_bounds {d s e : Int} {W O : Nat} (hse : s ≤ e)
    (hd : d ∈ schedSpecAmended s e W O) :
    s ≤ d ∧ (d = e ∨ d ≤ e + (W : Int) - 2) := by
  unfold schedSpecAmended at hd
  dsimp only at hd
  rw [List.mem_append] at hd
  rcases hd with hd | hd
  · have h0 := mem_blockSchedule_lower hd
    have h1 := mem_blockSchedule_upper hd
    have hk1 : 1 ≤ kFrom (e - s) 1 (W + O) := by
      rw [mem_blockSchedule] at hd
      obtain ⟨j, hj, _⟩ := hd
      omega
    have hn : (1 : Int) ≤ e - s := by
      by_contra hcon
      rw [kFrom_of_lt _ (by omega)] at hk1
      omega
    have hle := kFrom_pred_mul_le (P := W + O) hn
    push_cast at hle
    refine ⟨h0, Or.inr ?_⟩
    generalize hA : ((kFrom (e - s) 1 (W + O) : Int) - 1) *
      ((W : Int) + (O : Int)) = A at h1 hle
    omega
  · split_ifs at hd with hal
    · rw [List.mem_singleton] at hd
      exact ⟨by omega, Or.inl hd⟩
    · simp at hd

theorem getWorkSchedule_eval (a b : String) {s e : Int} (W O : Nat)
    (hs : parseDMY a = some s) (he : parseDMY b = some e) (h : 0 < W + O) :
    getWorkSchedule ⟨a, b⟩ W O =
      some (Except.ok ((schedSpecAmended s e W O).map transformDate)) := by
  unfold getWorkSchedule
  dsimp only
  rw [hs, he]
  show (getWorkScheduleCore s e W O).map
    (fun l => Except.ok (l.map transformDate)) = _
  rw [getWorkScheduleCore_closed s e W O h]
  rfl

/-- Sanity of the calendar model: 1970-01-01 is day 0, 2024-01-01 is day
19723, and formatting round-trips a concrete date. -/
theorem calendar_sanity :
    daysFromCivil 1970 1 1 = 0 ∧ daysFromCivil 2024 1 1 = 19723 ∧
      civilFromDays 19725 = (2024, 1, 3) ∧
      transformDate 19725 = "03-01-2024" ∧
      parseDMY "15-01-2024" = some 19737 ∧ parseDMY "31-02-2024" = none := by
  refine ⟨by decide, by decide, by decide, by decide, by decide, by decide⟩

/-- Sanity of the weekend-count model against the source's documented
examples: (5, 2022) gives 9, (12, 2023) gives 10, (1, 2024) gives 8. -/
theorem weekend_sanity :
    getCountWeekendsInMonth 5 2022 = 9 ∧
      getCountWeekendsInMonth 12 2023 = 10 ∧
      getCountWeekendsInMonth 1 2024 = 8 ∧ specWeekendCount 5 2022 = 9 := by
  refine ⟨by decide, by decide, by decide, by decide⟩

theorem okEq {l₁ l₂ : List String} (h : l₁ = l₂) :
    (some (Except.ok l₁) : Option (Except String (List String))) =
      some (Except.ok l₂) := by
  rw [h]

/-- C1, counterexample.  On the period 01-01-2024 .. 02-01-2024 with
`workDays = 3`, `offDays = 1`, the code emits 03-01-2024 — one day past the
end of the range — while the claimed characterisation (the dates of
`[start, end]` with offset mod 4 below 3, `schedSpecOriginal`) contains only
the two in-range dates: the claim is false at this input. -/
theorem claim_C1_counterexample :
    getWorkSchedule ⟨"01-01-2024", "02-01-2024"⟩ 3 1 =
      some (Except.ok ["01-01-2024", "02-01-2024", "03-01-2024"]) ∧
    (schedSpecOriginal 19723 19724 3 1).map transformDate =
      ["01-01-2024", "02-01-2024"] ∧
    (["01-01-2024", "02-01-2024", "03-01-2024"] : List String) ≠
      ["01-01-2024", "02-01-2024"] := by
  refine ⟨?_, by decide, by decide⟩
  rw [getWorkSchedule_eval "01-01-2024" "02-01-2024" 3 1
    (by decide : parseDMY "01-01-2024" = some 19723)
    (by decide : parseDMY "02-01-2024" = some 19724) (by norm_num)]
  exact okEq (by decide)

/-- C1, amended.  For every start ≤ end and workDays ≥ 1, offDays ≥ 1,
`getWorkSchedule` returns exactly one FULL block of `workDays` consecutive
dates per outer-loop iteration (iteration `j` starting
`j * (workDays + offDays)` days after start, with
`⌊(n - 1) / (workDays + offDays)⌋ + 1` iterations for `n = end - start ≥ 1`
and none for `n = 0`), in increasing order; blocks begun inside the range
are NOT truncated at `end`, and additionally the end date itself is emitted
exactly when the final cursor lands on it (`n` a multiple of
`workDays + offDays`). -/
theorem claim_C1_amended (s e : Int) (W O : Nat) (hse : s ≤ e) (hW : 1 ≤ W)
    (hO : 1 ≤ O) :
    getWorkScheduleCore s e W O = some (schedSpecAmended s e W O) :=
  getWorkScheduleCore_closed s e W O (by omega)

/-- C1, witness for the amended theorem at the spec's first example input. -/
theorem claim_C1_witness :
    getWorkScheduleCore 19723 19737 1 3 =
      some (schedSpecAmended 19723 19737 1 3) :=
  claim_C1_amended 19723 19737 1 3 (by norm_num) (by norm_num) (by norm_num)

/-- C2, counterexample.  On the period 01-01-2024 .. 02-01-2024 with
`workDays = 4`, `offDays = 1`, the returned schedule contains 04-01-2024,
whose day number 19726 exceeds the end date's day number 19724: not every
emitted date lies within `[start, end]`. -/
theorem claim_C2_counterexample :
    getWorkSchedule ⟨"01-01-2024", "02-01-2024"⟩ 4 1 =
      some (Except.ok
        ["01-01-2024", "02-01-2024", "03-01-2024", "04-01-2024"]) ∧
    parseDMY "04-01-2024" = some 19726 ∧
    parseDMY "02-01-2024" = some 19724 ∧ ¬ ((19726 : Int) ≤ 19724) := by
  refine ⟨?_, by decide, by decide, by decide⟩
  rw [getWorkSchedule_eval "01-01-2024" "02-01-2024" 4 1
    (by decide : parseDMY "01-01-2024" = some 19723)
    (by decide : parseDMY "02-01-2024" = some 19724) (by norm_num)]
  exact okEq (by decide)

/-- C2, amended.  For every start ≤ end and workDays ≥ 1, offDays ≥ 1,
every returned date `d` satisfies `start ≤ d`, and `d` is either the end
date or at most `end + workDays - 2`: the final block may overrun the end
of the range by up to `workDays - 2` days (so for workDays ≤ 2 every date
does lie in `[start, end]`). -/
theorem claim_C2_amended (s e : Int) (W O : Nat) (hse : s ≤ e) (hW : 1 ≤ W)
    (hO : 1 ≤ O) (l : List Int) (hl : getWorkScheduleCore s e W O = some l) :
    ∀ d ∈ l, s ≤ d ∧ (d = e ∨ d ≤ e + (W : Int) - 2) := by
  rw [getWorkScheduleCore_closed s e W O (by omega)] at hl
  injection hl with hl
  subst hl
  intro d hd
  exact mem_schedSpecAmended_bounds hse hd

/-- C2, witness for the amended theorem: the overrun date 19725 of the
period 19723 .. 19724 with workDays = 4 satisfies the amended bounds. -/
theorem claim_C2_witness :
    (19723 : Int) ≤ 19725 ∧
      ((19725 : Int) = 19724 ∨ (19725 : Int) ≤ 19724 + (4 : Nat) - 2) :=
  claim_C2_amended 19723 19724 4 1 (by norm_num) (by norm_num) (by norm_num)
    (schedSpecAmended 19723 19724 4 1)
    (getWorkScheduleCore_closed 19723 19724 4 1 (by norm_num)) 19725
    (by decide)

/-- C3, counterexample.  With start 05-01-2024 strictly after end
02-01-2024 the function raises nothing: it returns the empty schedule
normally, so no `InvalidArgument` condition exists in the code. -/
theorem claim_C3_counterexample :
    getWorkSchedule ⟨"05-01-2024", "02-01-2024"⟩ 1 1 =
      some (Except.ok []) ∧
    ¬ raisesInvalidArgument (getWorkSchedule ⟨"05-01-2024", "02-01-2024"⟩ 1 1) := by
  constructor
  · unfold getWorkSchedule
    dsimp only
    rw [(by decide : parseDMY "05-01-2024" = some 19727),
      (by decide : parseDMY "02-01-2024" = some 19724)]
    show (getWorkScheduleCore 19727 19724 1 1).map
      (fun l => Except.ok (l.map transformDate)) = _
    rw [getWorkScheduleCore_empty_of_lt 19727 19724 1 1 (by norm_num)]
    rfl
  · rintro ⟨msg, hmsg⟩
    exact getWorkSchedule_never_error _ _ _ msg hmsg

/-- C3, amended.  `getWorkSchedule` performs no argument validation: on
every parseable period it never raises an error — also when
`workDays < 1`, `offDays < 1` or start > end — and when start > end it
returns the empty array normally. -/
theorem claim_C3_amended (p : DatePeriod) (s e : Int) (W O : Nat)
    (hs : parseDMY p.start = some s) (he : parseDMY p.«end» = some e)
    (hinv : W < 1 ∨ O < 1 ∨ e < s) :
    ¬ raisesInvalidArgument (getWorkSchedule p W O) ∧
      (e < s → getWorkSchedule p W O = some (Except.ok [])) := by
  constructor
  · rintro ⟨msg, hmsg⟩
    exact getWorkSchedule_never_error p W O msg hmsg
  · intro hlt
    unfold getWorkSchedule
    rw [hs, he]
    show (getWorkScheduleCore s e W O).map
      (fun l => Except.ok (l.map transformDate)) = _
    rw [getWorkScheduleCore_empty_of_lt s e W O hlt]
    rfl

/-- C3, witness for the amended theorem at `workDays = 0` and an inverted
period. -/
theorem claim_C3_witness :
    ¬ raisesInvalidArgument
        (getWorkSchedule ⟨"10-01-2024", "02-01-2024"⟩ 0 1) ∧
      ((19724 : Int) < 19732 →
        getWorkSchedule ⟨"10-01-2024", "02-01-2024"⟩ 0 1 =
          some (Except.ok [])) :=
  claim_C3_amended ⟨"10-01-2024", "02-01-2024"⟩ 19732 19724 0 1
    (by decide) (by decide) (Or.inl (by norm_num))

/-- C4: the two documented examples.  Pattern (1, 3) over
01-01-2024 .. 15-01-2024 yields the four dates, and pattern (1, 1) over
01-01-2024 .. 10-01-2024 yields the five odd dates. -/
theorem claim_C4_examples :
    getWorkSchedule ⟨"01-01-2024", "15-01-2024"⟩ 1 3 =
      some (Except.ok
        ["01-01-2024", "05-01-2024", "09-01-2024", "13-01-2024"]) ∧
    getWorkSchedule ⟨"01-01-2024", "10-01-2024"⟩ 1 1 =
      some (Except.ok
        ["01-01-2024", "03-01-2024", "05-01-2024", "07-01-2024",
          "09-01-2024"]) := by
  constructor
  · rw [getWorkSchedule_eval "01-01-2024" "15-01-2024" 1 3
      (by decide : parseDMY "01-01-2024" = some 19723)
      (by decide : parseDMY "15-01-2024" = some 19737) (by norm_num)]
    exact okEq (by decide)
  · rw [getWorkSchedule_eval "01-01-2024" "10-01-2024" 1 1
      (by decide : parseDMY "01-01-2024" = some 19723)
      (by decide : parseDMY "10-01-2024" = some 19732) (by norm_num)]
    exact okEq (by decide)

/-- C5: for every start ≤ end and workDays ≥ 1, offDays ≥ 1, the emitted
day-number sequence (whose `DD-MM-YYYY` rendering the function returns) is
strictly increasing by calendar day, hence duplicate-free. -/
theorem claim_C5_sorted (s e : Int) (W O : Nat) (hse : s ≤ e) (hW : 1 ≤ W)
    (hO : 1 ≤ O) :
    ∃ l, getWorkScheduleCore s e W O = some l ∧
      l.Pairwise (· < ·) ∧ l.Nodup :=
  ⟨schedSpecAmended s e W O, getWorkScheduleCore_closed s e W O (by omega),
    pairwise_schedSpecAmended s e W O,
    (pairwise_schedSpecAmended s e W O).imp (fun h => ne_of_lt h)⟩

/-- C5, witness at the spec's second example input. -/
theorem claim_C5_witness :
    ∃ l, getWorkScheduleCore 19723 19732 1 1 = some l ∧
      l.Pairwise (· < ·) ∧ l.Nodup :=
  claim_C5_sorted 19723 19732 1 1 (by norm_num) (by norm_num) (by norm_num)

/-- C6: when start = end, the schedule is exactly the one-element list
holding the start date, for every workDays ≥ 1 and offDays ≥ 1 (the loop
runs zero times and the final cursor-equals-end check emits the date). -/
theorem claim_C6_single (s : Int) (W O : Nat) (hW : 1 ≤ W) (hO : 1 ≤ O) :
    getWorkScheduleCore s s W O = some [s] := by
  rw [getWorkScheduleCore_closed s s W O (by omega)]
  unfold schedSpecAmended
  dsimp only
  rw [kFrom_of_lt _ (by omega : s - s < 1), blockSchedule_zero]
  rw [if_pos (show s + ((0 : Nat) : Int) * ((W : Int) + (O : Int)) = s by
    push_cast; ring)]
  simp

/-- C6, witness. -/
theorem claim_C6_witness : getWorkScheduleCore 42 42 2 3 = some [42] :=
  claim_C6_single 42 2 3 (by norm_num) (by norm_num)

/-- C7: `getWorkSchedule` is a pure function of its three inputs — two
calls with identical period, workDays and offDays yield identical results
(in the embedding all state is local, matching the source, which writes
only to fresh local objects). -/
theorem claim_C7_deterministic (p : DatePeriod) (W O : Nat)
    (r₁ r₂ : Option (Except String (List String)))
    (h₁ : getWorkSchedule p W O = r₁) (h₂ : getWorkSchedule p W O = r₂) :
    r₁ = r₂ := h₁ ▸ h₂

/-- C7, witness: two evaluations at the same concrete input agree. -/
theorem claim_C7_witness :
    (some (Except.ok ["01-01-2024"]) : Option (Except String (List String))) =
      some (Except.ok ["01-01-2024"]) := by
  have hpf : getWorkSchedule ⟨"01-01-2024", "01-01-2024"⟩ 1 1 =
      some (Except.ok ["01-01-2024"]) := by
    rw [getWorkSchedule_eval "01-01-2024" "01-01-2024" 1 1
      (by decide : parseDMY "01-01-2024" = some 19723)
      (by decide : parseDMY "01-01-2024" = some 19723) (by norm_num)]
    exact okEq (by decide)
  exact claim_C7_deterministic ⟨"01-01-2024", "01-01-2024"⟩ 1 1 _ _ hpf hpf

/-- C8: for every start ≤ end and workDays ≥ 1, offDays ≥ 1 the routine
terminates with a result, and the number of outer-loop iterations is at
most the length of the range in days. -/
theorem claim_C8_terminates (s e : Int) (W O : Nat) (h : 0 < W + O)
    (hse : s ≤ e) (hW : 1 ≤ W) (hO : 1 ≤ O) :
    (getWorkScheduleCore s e W O).isSome = true ∧
      schedLoopIters W O h (e - s) 1 ≤ (e - s).toNat + 1 := by
  constructor
  · rw [getWorkScheduleCore_closed s e W O h]
    rfl
  · exact schedLoopIters_le W O h hse

/-- C8, witness at the spec's first example input. -/
theorem claim_C8_witness :
    (getWorkScheduleCore 19723 19737 1 3).isSome = true ∧
      schedLoopIters 1 3 (by norm_num) ((19737 : Int) - 19723) 1 ≤
        ((19737 : Int) - 19723).toNat + 1 :=
  claim_C8_terminates 19723 19737 1 3 (by norm_num) (by norm_num)
    (by norm_num) (by norm_num)

/-- C9, counterexample (negation of the claim): there is NO valid month and
four-digit year on which `getCountWeekendsInMonth` fails to return the
total number of Saturdays and Sundays — the hard-coded offset is exact. -/
theorem claim_C9_counterexample :
    ¬ ∃ month year : Nat, 1 ≤ month ∧ month ≤ 12 ∧ 1000 ≤ year ∧
      year ≤ 9999 ∧
      getCountWeekendsInMonth month year ≠ specWeekendCount month year := by
  rintro ⟨m, y, _, _, _, _, hne⟩
  exact hne (getCountWeekendsInMonth_correct m y)

/-- C9, amended: despite the hard-coded counter start 8 and the scan
beginning at loop index 29, `getCountWeekendsInMonth` returns the correct
total count of Saturdays and Sundays for every month 1-12 of every
four-digit year: any 28 consecutive days contain exactly 8 weekend days,
and the loop adds the weekend days of the remaining `dayInMonth - 28`
dates, which fall on the same weekdays as days 29 and beyond. -/
theorem claim_C9_amended (month year : Nat) (h1 : 1 ≤ month)
    (h2 : month ≤ 12) (h3 : 1000 ≤ year) (h4 : year ≤ 9999) :
    getCountWeekendsInMonth month year = specWeekendCount month year :=
  getCountWeekendsInMonth_correct month year

/-- C9, witness. -/
theorem claim_C9_witness :
    getCountWeekendsInMonth 1 2024 = specWeekendCount 1 2024 :=
  claim_C9_amended 1 2024 (by norm_num) (by norm_num) (by norm_num)
    (by norm_num)

/-- C10: for every parseable period whose start is strictly later than its
end, `getWorkSchedule` raises no error and returns the empty array (the
loop guard fails at once and the final cursor differs from the end date),
for all workDays and offDays values. -/
theorem claim_C10_empty (p : DatePeriod) (s e : Int) (W O : Nat)
    (hs : parseDMY p.start = some s) (he : parseDMY p.«end» = some e)
    (hlt : e < s) : getWorkSchedule p W O = some (Except.ok []) := by
  unfold getWorkSchedule
  rw [hs, he]
  show (getWorkScheduleCore s e W O).map
    (fun l => Except.ok (l.map transformDate)) = _
  rw [getWorkScheduleCore_empty_of_lt s e W O hlt]
  rfl

/-- C10, witness, with workDays = offDays = 0. -/
theorem claim_C10_witness :
    getWorkSchedule ⟨"10-01-2024", "02-01-2024"⟩ 0 0 =
      some (Except.ok []) :=
  claim_C10_empty ⟨"10-01-2024", "02-01-2024"⟩ 19732 19724 0 0
    (by decide) (by decide) (by norm_num)

end CoreJsDates
